import Mathlib

/-!
Verification of `src/Process/ObjectRemovalHelper.js` (itowns excerpt).

The scene graph is embedded as a tree of `Obj3D` nodes. Each node carries:
an object identity `oid` (standing for the JS object reference), an optional
`layer` reference, an optional geometry resource (identified by a `Nat` id),
a material slot (absent, a single material, or a JS array of materials),
the `isScene` flag, whether the object exposes a `dispose` function
(`hasDispose`), the auxiliary `link` list, and the ordered `children` list.

A `Material` holds its own resource id `mid` and the list of texture ids of
its texture-valued attributes, in `Object.keys` order (non-texture attributes
are not inspected by the source, so they are not represented).

Side effects (calls of `dispose()` on geometries, materials and textures,
generic `obj.dispose()` invocations, and `dispatchEvent`) are modelled as an
event trace `List Ev` returned next to the updated node.  THREE's
`obj.remove(...toRemove)` detaches listed objects from `children` by
reference; in the embedding references are compared through `oid`.
-/

structure Layer where
  oid : Nat
  id : Nat
deriving DecidableEq, Repr

structure Material where
  mid : Nat
  textures : List Nat
deriving DecidableEq, Repr

inductive MaterialSlot where
  | absent : MaterialSlot
  | single (m : Material) : MaterialSlot
  | array (ms : List Material) : MaterialSlot
deriving DecidableEq, Repr

inductive Ev where
  | geomDispose (g : Nat) : Ev
  | matDispose (m : Nat) : Ev
  | texDispose (t : Nat) : Ev
  | genericDispose (o : Nat) : Ev
  | dispatch (o : Nat) (ty : String) : Ev
deriving DecidableEq, Repr

inductive Obj3D where
  | node (oid : Nat) (layer : Option Layer) (geometry : Option Nat)
      (material : MaterialSlot) (isScene : Bool) (hasDispose : Bool)
      (link : List Obj3D) (children : List Obj3D) : Obj3D
deriving Repr

namespace Obj3D

def oid : Obj3D → Nat
  | .node i _ _ _ _ _ _ _ => i

def layer : Obj3D → Option Layer
  | .node _ l _ _ _ _ _ _ => l

def geometry : Obj3D → Option Nat
  | .node _ _ g _ _ _ _ _ => g

def material : Obj3D → MaterialSlot
  | .node _ _ _ m _ _ _ _ => m

def isScene : Obj3D → Bool
  | .node _ _ _ _ s _ _ _ => s

def hasDispose : Obj3D → Bool
  | .node _ _ _ _ _ d _ _ => d

def link : Obj3D → List Obj3D
  | .node _ _ _ _ _ _ lk _ => lk

def children : Obj3D → List Obj3D
  | .node _ _ _ _ _ _ _ ch => ch

end Obj3D

/-- `disposeSingleMaterialAndTextures(material)`: `material.dispose()` then,
for each key of the material in order, dispose the value when it is a
texture. -/
def disposeSingleMaterialAndTextures (material : Material) : List Ev :=
  Ev.matDispose material.mid :: material.textures.map Ev.texDispose

/-- Trace of the `if (obj.material)` block of `cleanup`: skipped when absent,
`disposeSingleMaterialAndTextures` on a single material, and on each entry of
a material array. -/
def materialTrace : MaterialSlot → List Ev
  | .absent => []
  | .single m => disposeSingleMaterialAndTextures m
  | .array ms => ms.flatMap disposeSingleMaterialAndTextures

/-- Trace of the `if (obj.geometry)` block of `cleanup`. -/
def geometryTrace : Option Nat → List Ev
  | some g => [Ev.geomDispose g]
  | none => []

/-- `cleanup(obj)`: sets `obj.layer = null`; if the object is not a scene
and exposes a `dispose` function, calls it; otherwise disposes the geometry
(if any), the material(s) and their textures, and dispatches a `dispose`
event.  Returns the updated object and the event trace. -/
def cleanup : Obj3D → Obj3D × List Ev
  | .node oid _ g m s d lk ch =>
    let cleared := Obj3D.node oid none g m s d lk ch
    if !s && d then
      (cleared, [Ev.genericDispose oid])
    else
      (cleared, geometryTrace g ++ materialTrace m ++ [Ev.dispatch oid "dispose"])

/-- The JS membership test `(c.layer && c.layer.id) === layer.id`: true iff
the object has a layer whose `id` equals the target layer's `id`. -/
def layerIdMatch (target : Layer) : Option Layer → Bool
  | some l => l.id == target.id
  | none => false

/-- A node belongs to `target` when its layer's `id` matches. -/
def belongs (target : Layer) (c : Obj3D) : Bool :=
  layerIdMatch target c.layer

/-- Result of a removal operation: the updated node, the returned array of
removed objects, and the side-effect trace. -/
structure RemResult where
  obj : Obj3D
  removed : List Obj3D
  trace : List Ev

/-- `removeChildren(layer, obj)`: filter the children belonging to `layer`
by id, detach exactly those (`obj.remove(...toRemove)`), return them.  No
resource is released. -/
def removeChildren (target : Layer) (obj : Obj3D) : RemResult :=
  match obj with
  | .node oid lay g m s d lk ch =>
    let toRemove := ch.filter (belongs target)
    { obj := Obj3D.node oid lay g m s d lk (ch.filter (fun c => !(belongs target c))),
      removed := toRemove,
      trace := [] }

/-- `removeChildrenAndCleanup(layer, obj)`: same selection and detachment as
`removeChildren`; then, if `obj.layer === layer` (reference identity, modelled
as equality of the `Layer` values with their `oid`), `cleanup(obj)`. -/
def removeChildrenAndCleanup (target : Layer) (obj : Obj3D) : RemResult :=
  match obj with
  | .node oid lay g m s d lk ch =>
    let toRemove := ch.filter (belongs target)
    let detached := Obj3D.node oid lay g m s d lk (ch.filter (fun c => !(belongs target c)))
    if lay = some target then
      { obj := (cleanup detached).1, removed := toRemove, trace := (cleanup detached).2 }
    else
      { obj := detached, removed := toRemove, trace := [] }

/-- `removeChildrenAndCleanupRecursively(layer, obj)`: candidates are the
children belonging to `layer` (by id) concatenated with the whole `link`
list; the operation recurses into every candidate, then
`obj.remove(...toRemove)` detaches the candidates from `children` (by
reference, i.e. by `oid`; link entries that are not children are no-ops),
then `cleanup(obj)` iff `obj.layer && obj.layer.id === layer.id`.  Returns
the candidate list; since JS mutates the candidates in place, the returned
list and the `link` field hold the updated candidates. -/
def removeChildrenAndCleanupRecursively (target : Layer) : Obj3D → RemResult
  | .node oid lay g m s d lk ch =>
    let childCands := ch.filter (belongs target)
    let recChild := childCands.attach.map
      (fun c => removeChildrenAndCleanupRecursively target c.1)
    let recLink := lk.attach.map
      (fun c => removeChildrenAndCleanupRecursively target c.1)
    let recTrace := recChild.flatMap RemResult.trace ++ recLink.flatMap RemResult.trace
    let removedOut := recChild.map RemResult.obj ++ recLink.map RemResult.obj
    let newLink := recLink.map RemResult.obj
    let newCh := ch.filter
      (fun c => !(belongs target c) && lk.all (fun e => e.oid != c.oid))
    let detached := Obj3D.node oid lay g m s d newLink newCh
    if layerIdMatch target lay then
      { obj := (cleanup detached).1, removed := removedOut,
        trace := recTrace ++ (cleanup detached).2 }
    else
      { obj := detached, removed := removedOut, trace := recTrace }
  termination_by obj => sizeOf obj
  decreasing_by
  all_goals simp_wf
  · have h2 := List.mem_of_mem_filter c.2
    have h3 := List.sizeOf_lt_of_mem h2
    omega
  · have h3 := List.sizeOf_lt_of_mem c.2
    omega

/-! ### Basic lemmas about the embedding -/

@[simp] lemma Obj3D.oid_node (i : Nat) (l : Option Layer) (g : Option Nat)
    (m : MaterialSlot) (s d : Bool) (lk ch : List Obj3D) :
    (Obj3D.node i l g m s d lk ch).oid = i := rfl

@[simp] lemma Obj3D.layer_node (i : Nat) (l : Option Layer) (g : Option Nat)
    (m : MaterialSlot) (s d : Bool) (lk ch : List Obj3D) :
    (Obj3D.node i l g m s d lk ch).layer = l := rfl

@[simp] lemma Obj3D.geometry_node (i : Nat) (l : Option Layer) (g : Option Nat)
    (m : MaterialSlot) (s d : Bool) (lk ch : List Obj3D) :
    (Obj3D.node i l g m s d lk ch).geometry = g := rfl

@[simp] lemma Obj3D.material_node (i : Nat) (l : Option Layer) (g : Option Nat)
    (m : MaterialSlot) (s d : Bool) (lk ch : List Obj3D) :
    (Obj3D.node i l g m s d lk ch).material = m := rfl

@[simp] lemma Obj3D.isScene_node (i : Nat) (l : Option Layer) (g : Option Nat)
    (m : MaterialSlot) (s d : Bool) (lk ch : List Obj3D) :
    (Obj3D.node i l g m s d lk ch).isScene = s := rfl

@[simp] lemma Obj3D.hasDispose_node (i : Nat) (l : Option Layer) (g : Option Nat)
    (m : MaterialSlot) (s d : Bool) (lk ch : List Obj3D) :
    (Obj3D.node i l g m s d lk ch).hasDispose = d := rfl

@[simp] lemma Obj3D.link_node (i : Nat) (l : Option Layer) (g : Option Nat)
    (m : MaterialSlot) (s d : Bool) (lk ch : List Obj3D) :
    (Obj3D.node i l g m s d lk ch).link = lk := rfl

@[simp] lemma Obj3D.children_node (i : Nat) (l : Option Layer) (g : Option Nat)
    (m : MaterialSlot) (s d : Bool) (lk ch : List Obj3D) :
    (Obj3D.node i l g m s d lk ch).children = ch := rfl

/-- The side-effect trace of `cleanup` on a node, on its own (without any
recursion): what a single `cleanup(obj)` call releases and dispatches. -/
def ownTrace (o : Obj3D) : List Ev := (cleanup o).2

lemma ownTrace_node (i : Nat) (l : Option Layer) (g : Option Nat)
    (m : MaterialSlot) (s d : Bool) (lk ch : List Obj3D) :
    ownTrace (Obj3D.node i l g m s d lk ch) =
      if !s && d then [Ev.genericDispose i]
      else geometryTrace g ++ materialTrace m ++ [Ev.dispatch i "dispose"] := by
  unfold ownTrace
  simp only [cleanup, apply_ite Prod.snd]

/-- The trace of `cleanup` depends only on the node's identity, geometry,
material and the two flags: not on its layer, link list or children. -/
lemma ownTrace_congr (i : Nat) (l l2 : Option Layer) (g : Option Nat)
    (m : MaterialSlot) (s d : Bool) (lk lk2 ch ch2 : List Obj3D) :
    ownTrace (Obj3D.node i l g m s d lk ch) =
      ownTrace (Obj3D.node i l2 g m s d lk2 ch2) := by
  rw [ownTrace_node, ownTrace_node]

/-- The node returned by `cleanup` is the input with the layer cleared. -/
lemma cleanup_fst (o : Obj3D) :
    (cleanup o).1 =
      Obj3D.node o.oid none o.geometry o.material o.isScene o.hasDispose
        o.link o.children := by
  cases o
  simp only [cleanup, apply_ite Prod.fst, ite_self, Obj3D.oid_node, Obj3D.geometry_node,
    Obj3D.material_node, Obj3D.isScene_node, Obj3D.hasDispose_node, Obj3D.link_node,
    Obj3D.children_node]

lemma cleanup_snd (o : Obj3D) : (cleanup o).2 = ownTrace o := rfl

/-- `cleanup` dispatches on `isScene`/`hasDispose` exactly as the source
`if (!obj.isScene && typeof obj.dispose === 'function')`. -/
lemma ownTrace_eq (o : Obj3D) :
    ownTrace o =
      if !o.isScene && o.hasDispose then [Ev.genericDispose o.oid]
      else geometryTrace o.geometry ++ materialTrace o.material
        ++ [Ev.dispatch o.oid "dispose"] := by
  cases o
  rw [ownTrace_node]
  rfl

lemma attach_flatMap {A B : Type} (l : List A) (G : A → List B) :
    l.attach.flatMap (fun c => G c.1) = l.flatMap G := by
  rw [List.flatMap_def, List.flatMap_def, List.attach_map_val]

lemma map_attach_eq {A B : Type} (l : List A) (F : A → B) :
    l.attach.map (fun c => F c.1) = l.map F := List.attach_map_val l F

/-- Closed form of one unfolding of `removeChildrenAndCleanupRecursively` on
a node, with the `attach` bookkeeping of the well-founded definition
eliminated. -/
lemma rccr_node (t : Layer) (i : Nat) (lay : Option Layer) (g : Option Nat)
    (m : MaterialSlot) (s d : Bool) (lk ch : List Obj3D) :
    removeChildrenAndCleanupRecursively t (.node i lay g m s d lk ch) =
      { obj := Obj3D.node i (if layerIdMatch t lay then none else lay) g m s d
          (lk.map (fun c => (removeChildrenAndCleanupRecursively t c).obj))
          (ch.filter (fun c => !(belongs t c) && lk.all (fun e => e.oid != c.oid))),
        removed :=
          (ch.filter (belongs t)).map (fun c => (removeChildrenAndCleanupRecursively t c).obj)
          ++ lk.map (fun c => (removeChildrenAndCleanupRecursively t c).obj),
        trace :=
          (ch.filter (belongs t)).flatMap
            (fun c => (removeChildrenAndCleanupRecursively t c).trace)
          ++ lk.flatMap (fun c => (removeChildrenAndCleanupRecursively t c).trace)
          ++ (if layerIdMatch t lay then ownTrace (Obj3D.node i lay g m s d lk ch)
              else []) } := by
  rw [removeChildrenAndCleanupRecursively]
  simp only [List.map_map, List.flatMap_map, Function.comp_def]
  rw [map_attach_eq (ch.filter (belongs t)) (fun c => (removeChildrenAndCleanupRecursively t c).obj),
    map_attach_eq lk (fun c => (removeChildrenAndCleanupRecursively t c).obj),
    attach_flatMap (ch.filter (belongs t)) (fun c => (removeChildrenAndCleanupRecursively t c).trace),
    attach_flatMap lk (fun c => (removeChildrenAndCleanupRecursively t c).trace)]
  split
  case isTrue h =>
    rw [cleanup_fst, cleanup_snd]
    simp only [Obj3D.oid_node, Obj3D.geometry_node, Obj3D.material_node, Obj3D.isScene_node,
      Obj3D.hasDispose_node, Obj3D.link_node, Obj3D.children_node]
    rw [ownTrace_congr i lay lay g m s d
      (lk.map (fun c => (removeChildrenAndCleanupRecursively t c).obj)) lk
      (ch.filter (fun c => !(belongs t c) && lk.all (fun e => e.oid != c.oid))) ch]
  case isFalse h =>
    simp [h]

lemma rccr_removed (t : Layer) (o : Obj3D) :
    (removeChildrenAndCleanupRecursively t o).removed =
      (o.children.filter (belongs t)).map
        (fun c => (removeChildrenAndCleanupRecursively t c).obj)
      ++ o.link.map (fun c => (removeChildrenAndCleanupRecursively t c).obj) := by
  cases o
  rw [rccr_node]
  simp

lemma rccr_trace (t : Layer) (o : Obj3D) :
    (removeChildrenAndCleanupRecursively t o).trace =
      (o.children.filter (belongs t)).flatMap
        (fun c => (removeChildrenAndCleanupRecursively t c).trace)
      ++ o.link.flatMap (fun c => (removeChildrenAndCleanupRecursively t c).trace)
      ++ (if layerIdMatch t o.layer then ownTrace o else []) := by
  cases o
  rw [rccr_node]
  simp

lemma rccr_obj_children (t : Layer) (o : Obj3D) :
    (removeChildrenAndCleanupRecursively t o).obj.children =
      o.children.filter
        (fun c => !(belongs t c) && o.link.all (fun e => e.oid != c.oid)) := by
  cases o
  rw [rccr_node]
  simp

lemma rccr_obj_link (t : Layer) (o : Obj3D) :
    (removeChildrenAndCleanupRecursively t o).obj.link =
      o.link.map (fun c => (removeChildrenAndCleanupRecursively t c).obj) := by
  cases o
  rw [rccr_node]
  simp

lemma rccr_obj_layer (t : Layer) (o : Obj3D) :
    (removeChildrenAndCleanupRecursively t o).obj.layer =
      if layerIdMatch t o.layer then none else o.layer := by
  cases o
  rw [rccr_node]
  simp

lemma rccr_obj_oid (t : Layer) (o : Obj3D) :
    (removeChildrenAndCleanupRecursively t o).obj.oid = o.oid := by
  cases o
  rw [rccr_node]
  simp

lemma rccr_removed_map_oid (t : Layer) (o : Obj3D) :
    (removeChildrenAndCleanupRecursively t o).removed.map Obj3D.oid =
      (o.children.filter (belongs t)).map Obj3D.oid ++ o.link.map Obj3D.oid := by
  rw [rccr_removed]
  simp [List.map_map, Function.comp_def, rccr_obj_oid]

lemma rccr_obj_link_map_oid (t : Layer) (o : Obj3D) :
    (removeChildrenAndCleanupRecursively t o).obj.link.map Obj3D.oid =
      o.link.map Obj3D.oid := by
  rw [rccr_obj_link]
  simp [List.map_map, Function.comp_def, rccr_obj_oid]

/-- All nodes of the tree rooted at `o`, following both the `children` and
the `link` edges (specification-side notion used to state the reclaim
invariants). -/
def allNodes : Obj3D → List Obj3D
  | .node i l g m s d lk ch =>
    Obj3D.node i l g m s d lk ch ::
      (ch.attach.flatMap (fun c => allNodes c.1)
        ++ lk.attach.flatMap (fun c => allNodes c.1))
  termination_by o => sizeOf o
  decreasing_by
  all_goals simp_wf
  · have h3 := List.sizeOf_lt_of_mem c.2
    omega
  · have h3 := List.sizeOf_lt_of_mem c.2
    omega

lemma allNodes_node (i : Nat) (l : Option Layer) (g : Option Nat)
    (m : MaterialSlot) (s d : Bool) (lk ch : List Obj3D) :
    allNodes (Obj3D.node i l g m s d lk ch) =
      Obj3D.node i l g m s d lk ch ::
        (ch.flatMap allNodes ++ lk.flatMap allNodes) := by
  rw [allNodes]
  rw [attach_flatMap ch allNodes, attach_flatMap lk allNodes]

lemma self_mem_allNodes (o : Obj3D) : o ∈ allNodes o := by
  cases o
  rw [allNodes_node]
  exact List.mem_cons_self _ _

lemma mem_allNodes_of_mem_children {n c : Obj3D} (o : Obj3D)
    (hc : c ∈ o.children) (hn : n ∈ allNodes c) : n ∈ allNodes o := by
  cases o
  rw [allNodes_node]
  refine List.mem_cons_of_mem _ (List.mem_append_left _ ?_)
  exact List.mem_flatMap.mpr ⟨c, hc, hn⟩

lemma mem_allNodes_of_mem_link {n c : Obj3D} (o : Obj3D)
    (hc : c ∈ o.link) (hn : n ∈ allNodes c) : n ∈ allNodes o := by
  cases o
  rw [allNodes_node]
  refine List.mem_cons_of_mem _ (List.mem_append_right _ ?_)
  exact List.mem_flatMap.mpr ⟨c, hc, hn⟩

/-- Every event of a recursive removal comes from the single `cleanup` of
some node of the tree that belongs to the target layer (by id): nodes not
belonging to the layer never have their own resources released. -/
lemma rccr_trace_from_belonging (t : Layer) (o : Obj3D) :
    ∀ e ∈ (removeChildrenAndCleanupRecursively t o).trace,
      ∃ n, n ∈ allNodes o ∧ belongs t n = true ∧ e ∈ ownTrace n := by
  induction o using removeChildrenAndCleanupRecursively.induct t with
  | case1 i lay g m s d lk ch childCands hmatch ihChild ihLink =>
    intro e he
    rw [rccr_trace] at he
    simp only [Obj3D.children_node, Obj3D.link_node, Obj3D.layer_node] at he
    rw [if_pos hmatch] at he
    rcases List.mem_append.mp he with he2 | hself
    · rcases List.mem_append.mp he2 with hc | hl
      · rcases List.mem_flatMap.mp hc with ⟨c, hcmem, hce⟩
        rcases ihChild ⟨c, hcmem⟩ e hce with ⟨n, hn, hb, hen⟩
        exact ⟨n, mem_allNodes_of_mem_children _ (List.mem_of_mem_filter hcmem) hn, hb, hen⟩
      · rcases List.mem_flatMap.mp hl with ⟨c, hcmem, hce⟩
        rcases ihLink ⟨c, hcmem⟩ e hce with ⟨n, hn, hb, hen⟩
        exact ⟨n, mem_allNodes_of_mem_link _ hcmem hn, hb, hen⟩
    · refine ⟨Obj3D.node i lay g m s d lk ch, self_mem_allNodes _, ?_, hself⟩
      simpa [belongs] using hmatch
  | case2 i lay g m s d lk ch childCands hmatch ihChild ihLink =>
    intro e he
    rw [rccr_trace] at he
    simp only [Obj3D.children_node, Obj3D.link_node, Obj3D.layer_node] at he
    rw [if_neg hmatch, List.append_nil] at he
    rcases List.mem_append.mp he with hc | hl
    · rcases List.mem_flatMap.mp hc with ⟨c, hcmem, hce⟩
      rcases ihChild ⟨c, hcmem⟩ e hce with ⟨n, hn, hb, hen⟩
      exact ⟨n, mem_allNodes_of_mem_children _ (List.mem_of_mem_filter hcmem) hn, hb, hen⟩
    · rcases List.mem_flatMap.mp hl with ⟨c, hcmem, hce⟩
      rcases ihLink ⟨c, hcmem⟩ e hce with ⟨n, hn, hb, hen⟩
      exact ⟨n, mem_allNodes_of_mem_link _ hcmem hn, hb, hen⟩

lemma removeChildren_node (t : Layer) (i : Nat) (lay : Option Layer) (g : Option Nat)
    (m : MaterialSlot) (s d : Bool) (lk ch : List Obj3D) :
    removeChildren t (.node i lay g m s d lk ch) =
      { obj := Obj3D.node i lay g m s d lk (ch.filter (fun c => !(belongs t c))),
        removed := ch.filter (belongs t),
        trace := [] } := rfl

lemma removeChildrenAndCleanup_node (t : Layer) (i : Nat) (lay : Option Layer)
    (g : Option Nat) (m : MaterialSlot) (s d : Bool) (lk ch : List Obj3D) :
    removeChildrenAndCleanup t (.node i lay g m s d lk ch) =
      if lay = some t then
        { obj := Obj3D.node i none g m s d lk (ch.filter (fun c => !(belongs t c))),
          removed := ch.filter (belongs t),
          trace := ownTrace (Obj3D.node i lay g m s d lk ch) }
      else
        { obj := Obj3D.node i lay g m s d lk (ch.filter (fun c => !(belongs t c))),
          removed := ch.filter (belongs t),
          trace := [] } := by
  have hred : removeChildrenAndCleanup t (.node i lay g m s d lk ch) =
      (if lay = some t then
        { obj := (cleanup (Obj3D.node i lay g m s d lk
            (ch.filter (fun c => !(belongs t c))))).1,
          removed := ch.filter (belongs t),
          trace := (cleanup (Obj3D.node i lay g m s d lk
            (ch.filter (fun c => !(belongs t c))))).2 }
       else
        { obj := Obj3D.node i lay g m s d lk (ch.filter (fun c => !(belongs t c))),
          removed := ch.filter (belongs t),
          trace := [] }) := rfl
  rw [hred]
  by_cases hc : lay = some t
  · rw [if_pos hc, if_pos hc, cleanup_fst, cleanup_snd]
    simp only [Obj3D.oid_node, Obj3D.geometry_node, Obj3D.material_node, Obj3D.isScene_node,
      Obj3D.hasDispose_node, Obj3D.link_node, Obj3D.children_node]
    rw [ownTrace_congr i lay lay g m s d lk lk
      (ch.filter (fun c => !(belongs t c))) ch]
  · rw [if_neg hc, if_neg hc]

/-! ### Claim theorems -/

/-- C6: for every layer `L` and node `N` whose direct children include
exactly `k` children with `layer.id` equal to `L.id`,
`removeChildren(L, N)` returns exactly those `k` children in their original
relative order; afterwards `N`'s child collection excludes them and retains
every other child (including children lacking a layer reference, which are
never selected) in original relative order. -/
theorem claim_C6_removeChildren_selection (L : Layer) (N : Obj3D) :
    (removeChildren L N).removed.length = (N.children.filter (belongs L)).length
    ∧ (removeChildren L N).removed.Sublist N.children
    ∧ (∀ c ∈ (removeChildren L N).removed, belongs L c = true)
    ∧ (removeChildren L N).obj.children.Sublist N.children
    ∧ (∀ c ∈ N.children,
        if belongs L c then c ∈ (removeChildren L N).removed
        else c ∈ (removeChildren L N).obj.children)
    ∧ (∀ c ∈ (removeChildren L N).obj.children, belongs L c = false)
    ∧ (∀ c ∈ N.children, c.layer = none → c ∈ (removeChildren L N).obj.children) := by
  cases N with
  | node i lay g m s d lk ch =>
    rw [removeChildren_node]
    simp only [Obj3D.children_node]
    refine ⟨by trivial, List.filter_sublist _, ?_, List.filter_sublist _, ?_, ?_, ?_⟩
    · intro c hc
      exact List.of_mem_filter hc
    · intro c hc
      by_cases hb : belongs L c
      · rw [if_pos hb]
        exact List.mem_filter.mpr ⟨hc, hb⟩
      · rw [if_neg hb]
        refine List.mem_filter.mpr ⟨hc, ?_⟩
        simp [hb]
    · intro c hc
      have := List.of_mem_filter hc
      simpa using this
    · intro c hc hlay
      refine List.mem_filter.mpr ⟨hc, ?_⟩
      simp [belongs, hlay, layerIdMatch]

def layerC6 : Layer := ⟨0, 10⟩
def layerC6b : Layer := ⟨1, 20⟩
def childC6A : Obj3D := .node 1 (some layerC6) none .absent false false [] []
def childC6B : Obj3D := .node 2 (some layerC6b) none .absent false false [] []
def childC6C : Obj3D := .node 3 none none .absent false false [] []
def nodeC6 : Obj3D := .node 9 none none .absent false false [] [childC6A, childC6B, childC6C]

theorem claim_C6_witness :
    childC6A ∈ (removeChildren layerC6 nodeC6).removed
    ∧ childC6C ∈ (removeChildren layerC6 nodeC6).obj.children := by
  have h := claim_C6_removeChildren_selection layerC6 nodeC6
  constructor
  · have hA := h.2.2.2.2.1 childC6A (List.mem_cons_self _ _)
    rw [if_pos (show belongs layerC6 childC6A = true from rfl)] at hA
    exact hA
  · exact h.2.2.2.2.2.2 childC6C
      (List.mem_cons_of_mem _ (List.mem_cons_of_mem _ (List.mem_cons_self _ _))) rfl

/-- C7: `removeChildren(L, N)` performs zero release invocations on any
geometry, material or texture (its trace is empty), and every child of `N`
not matching `L` stays in `N`'s child collection, unchanged and with its
multiplicity preserved. -/
theorem claim_C7_removeChildren_frame (L : Layer) (N : Obj3D) :
    (removeChildren L N).trace = []
    ∧ (removeChildren L N).obj.children.filter (fun c => !(belongs L c))
        = N.children.filter (fun c => !(belongs L c))
    ∧ (removeChildren L N).obj.children.countP (fun c => !(belongs L c))
        = N.children.countP (fun c => !(belongs L c))
    ∧ (∀ c ∈ N.children, belongs L c = false → c ∈ (removeChildren L N).obj.children) := by
  cases N with
  | node i lay g m s d lk ch =>
    rw [removeChildren_node]
    simp only [Obj3D.children_node]
    refine ⟨by trivial, ?_, ?_, ?_⟩
    · rw [List.filter_filter]
      simp
    · rw [List.countP_filter]
      simp
    · intro c hc hb
      refine List.mem_filter.mpr ⟨hc, ?_⟩
      simp [hb]

def layerC7 : Layer := ⟨0, 10⟩
def childC7 : Obj3D := .node 2 (some ⟨1, 20⟩) (some 4) (.single ⟨5, [6]⟩) false false [] []
def nodeC7 : Obj3D := .node 9 none none .absent false false [] [childC7]

theorem claim_C7_witness :
    (removeChildren layerC7 nodeC7).trace = []
    ∧ childC7 ∈ (removeChildren layerC7 nodeC7).obj.children := by
  have h := claim_C7_removeChildren_frame layerC7 nodeC7
  exact ⟨h.1, h.2.2.2 childC7 (List.mem_cons_self _ _) rfl⟩

/-- C8: after `cleanup(N)` the node's layer reference is cleared, on every
path (generic dispose, scene special case, or explicit release path). -/
theorem claim_C8_cleanup_clears_layer (N : Obj3D) : (cleanup N).1.layer = none := by
  rw [cleanup_fst]
  exact Obj3D.layer_node _ _ _ _ _ _ _ _

/-! ### Shape and counting lemmas for `cleanup` traces -/

lemma mem_disposeSingleMaterialAndTextures {e : Ev} {a : Material}
    (h : e ∈ disposeSingleMaterialAndTextures a) :
    (∃ k, e = Ev.matDispose k) ∨ (∃ k, e = Ev.texDispose k) := by
  unfold disposeSingleMaterialAndTextures at h
  rcases List.mem_cons.mp h with h1 | h2
  · exact Or.inl ⟨a.mid, h1⟩
  · rcases List.mem_map.mp h2 with ⟨k, _, hk⟩
    exact Or.inr ⟨k, hk.symm⟩

lemma mem_materialTrace {e : Ev} {m : MaterialSlot} (h : e ∈ materialTrace m) :
    (∃ k, e = Ev.matDispose k) ∨ (∃ k, e = Ev.texDispose k) := by
  cases m with
  | absent => simp [materialTrace] at h
  | single a => exact mem_disposeSingleMaterialAndTextures h
  | array ms =>
    rcases List.mem_flatMap.mp h with ⟨a, _, ha⟩
    exact mem_disposeSingleMaterialAndTextures ha

lemma mem_geometryTrace {e : Ev} {g : Option Nat} (h : e ∈ geometryTrace g) :
    ∃ k, e = Ev.geomDispose k := by
  cases g with
  | none => simp [geometryTrace] at h
  | some k =>
    rcases List.mem_singleton.mp h with rfl
    exact ⟨k, rfl⟩

/-- Every `dispatch` event of a single `cleanup` carries the node's own
identity, and so does every `genericDispose` event. -/
lemma ownTrace_oid {o : Obj3D} {e : Ev} (he : e ∈ ownTrace o) :
    (∀ x ty, e = Ev.dispatch x ty → x = o.oid)
    ∧ (∀ x, e = Ev.genericDispose x → x = o.oid) := by
  rw [ownTrace_eq] at he
  split at he
  · rcases List.mem_singleton.mp he with rfl
    exact ⟨fun x ty h => (by cases h), fun x h => (by cases h; rfl)⟩
  · rcases List.mem_append.mp he with h1 | h2
    · rcases List.mem_append.mp h1 with hg | hm
      · rcases mem_geometryTrace hg with ⟨k, rfl⟩
        exact ⟨fun x ty h => (by cases h), fun x h => (by cases h)⟩
      · rcases mem_materialTrace hm with ⟨k, rfl⟩ | ⟨k, rfl⟩
        · exact ⟨fun x ty h => (by cases h), fun x h => (by cases h)⟩
        · exact ⟨fun x ty h => (by cases h), fun x h => (by cases h)⟩
    · rcases List.mem_singleton.mp h2 with rfl
      exact ⟨fun x ty h => (by cases h; rfl), fun x h => (by cases h)⟩

lemma ownTrace_ne_nil (o : Obj3D) : ownTrace o ≠ [] := by
  rw [ownTrace_eq]
  split
  · simp
  · simp

/-- The list of materials the `if (obj.material)` block of `cleanup`
iterates over. -/
def materialsOf : MaterialSlot → List Material
  | .absent => []
  | .single m => [m]
  | .array ms => ms

lemma materialTrace_eq_flatMap (m : MaterialSlot) :
    materialTrace m = (materialsOf m).flatMap disposeSingleMaterialAndTextures := by
  cases m <;> simp [materialTrace, materialsOf]

lemma count_matDispose_single (a : Material) (k : Nat) :
    (disposeSingleMaterialAndTextures a).count (Ev.matDispose k)
      = if a.mid = k then 1 else 0 := by
  unfold disposeSingleMaterialAndTextures
  rw [List.count_cons]
  have hz : (a.textures.map Ev.texDispose).count (Ev.matDispose k) = 0 := by
    refine List.count_eq_zero_of_not_mem ?_
    intro hmem
    rcases List.mem_map.mp hmem with ⟨x, _, hx⟩
    cases hx
  rw [hz]
  by_cases h : a.mid = k
  · simp [h]
  · simp [h]

lemma count_texDispose_single (a : Material) (k : Nat) :
    (disposeSingleMaterialAndTextures a).count (Ev.texDispose k)
      = a.textures.count k := by
  unfold disposeSingleMaterialAndTextures
  rw [List.count_cons]
  have hb : (Ev.matDispose a.mid == Ev.texDispose k) = false := by rfl
  simp only [hb, Bool.false_eq_true, if_false, Nat.add_zero]
  exact List.count_map_of_injective _ Ev.texDispose (fun x y h => by cases h; rfl) k

lemma count_matDispose_flatMap (ms : List Material) (k : Nat) :
    (ms.flatMap disposeSingleMaterialAndTextures).count (Ev.matDispose k)
      = (ms.map Material.mid).count k := by
  induction ms with
  | nil => rfl
  | cons a as ih =>
    rw [List.flatMap_cons, List.count_append, ih, count_matDispose_single,
      List.map_cons, List.count_cons]
    by_cases h : a.mid = k
    · simp [h, Nat.add_comm]
    · simp [h]

lemma count_texDispose_flatMap (ms : List Material) (k : Nat) :
    (ms.flatMap disposeSingleMaterialAndTextures).count (Ev.texDispose k)
      = (ms.flatMap Material.textures).count k := by
  induction ms with
  | nil => rfl
  | cons a as ih =>
    rw [List.flatMap_cons, List.count_append, ih, count_texDispose_single,
      List.flatMap_cons, List.count_append]

/-- C2 as stated is false: when the same texture object is referenced by two
materials of the node's material list, a single `cleanup` releases that
texture once per referencing material, i.e. twice here, not exactly once.
`nodeC2` holds two materials that both reference texture `7`. -/
def nodeC2 : Obj3D :=
  .node 5 (some ⟨0, 0⟩) none (.array [⟨1, [7]⟩, ⟨2, [7]⟩]) false false [] []

theorem claim_C2_counterexample :
    nodeC2.hasDispose = false
    ∧ Material.mk 1 [7] ∈ materialsOf nodeC2.material
    ∧ Material.mk 2 [7] ∈ materialsOf nodeC2.material
    ∧ Material.mk 1 [7] ≠ Material.mk 2 [7]
    ∧ (7 : Nat) ∈ (Material.mk 1 [7]).textures
    ∧ (7 : Nat) ∈ (Material.mk 2 [7]).textures
    ∧ (cleanup nodeC2).2.count (Ev.texDispose 7) = 2 := by
  refine ⟨rfl, ?_, ?_, by decide, by decide, by decide, by rfl⟩
  · exact List.mem_cons_self _ _
  · exact List.mem_cons_of_mem _ (List.mem_cons_self _ _)

/-- C2 (amended): on the explicit release path (node is a scene or has no
generic dispose function), a single `cleanup(N)` clears the layer reference,
releases the geometry exactly once when present (never otherwise), releases
each material once per occurrence in the node's material list, and releases
each texture once per texture-valued attribute referencing it across the
material list: a texture shared by several materials is released once per
referencing material, not globally once. -/
theorem claim_C2_cleanup_release_counts (N : Obj3D)
    (hpath : N.isScene = true ∨ N.hasDispose = false) :
    ((cleanup N).1.layer = none)
    ∧ (∀ gg, (cleanup N).2.count (Ev.geomDispose gg)
        = if N.geometry = some gg then 1 else 0)
    ∧ (∀ k, (cleanup N).2.count (Ev.matDispose k)
        = ((materialsOf N.material).map Material.mid).count k)
    ∧ (∀ tx, (cleanup N).2.count (Ev.texDispose tx)
        = ((materialsOf N.material).flatMap Material.textures).count tx) := by
  have hcond : (!N.isScene && N.hasDispose) = false := by
    rcases hpath with h | h <;> simp [h]
  have htrace : (cleanup N).2 = geometryTrace N.geometry ++ materialTrace N.material
      ++ [Ev.dispatch N.oid "dispose"] := by
    rw [cleanup_snd, ownTrace_eq, hcond]
    simp
  refine ⟨by rw [cleanup_fst]; exact Obj3D.layer_node _ _ _ _ _ _ _ _, ?_, ?_, ?_⟩
  · intro gg
    rw [htrace, List.count_append, List.count_append]
    have h1 : (materialTrace N.material).count (Ev.geomDispose gg) = 0 := by
      refine List.count_eq_zero_of_not_mem ?_
      intro hmem
      rcases mem_materialTrace hmem with ⟨k, hk⟩ | ⟨k, hk⟩ <;> cases hk
    have h2 : ([Ev.dispatch N.oid "dispose"]).count (Ev.geomDispose gg) = 0 := by rfl
    rw [h1, h2]
    cases hG : N.geometry with
    | none => simp [geometryTrace]
    | some g0 =>
      by_cases hgg : g0 = gg
      · subst hgg
        simp [geometryTrace]
      · have hz : (geometryTrace (some g0)).count (Ev.geomDispose gg) = 0 := by
          refine List.count_eq_zero_of_not_mem ?_
          intro hmem
          have h3 := List.mem_singleton.mp hmem
          cases h3
          exact hgg rfl
        rw [hz, if_neg (by simp [hgg])]
  · intro k
    rw [htrace, List.count_append, List.count_append]
    have h1 : (geometryTrace N.geometry).count (Ev.matDispose k) = 0 := by
      refine List.count_eq_zero_of_not_mem ?_
      intro hmem
      rcases mem_geometryTrace hmem with ⟨x, hx⟩
      cases hx
    have h2 : ([Ev.dispatch N.oid "dispose"]).count (Ev.matDispose k) = 0 := by rfl
    rw [h1, h2, materialTrace_eq_flatMap, count_matDispose_flatMap]
    omega
  · intro tx
    rw [htrace, List.count_append, List.count_append]
    have h1 : (geometryTrace N.geometry).count (Ev.texDispose tx) = 0 := by
      refine List.count_eq_zero_of_not_mem ?_
      intro hmem
      rcases mem_geometryTrace hmem with ⟨x, hx⟩
      cases hx
    have h2 : ([Ev.dispatch N.oid "dispose"]).count (Ev.texDispose tx) = 0 := by rfl
    rw [h1, h2, materialTrace_eq_flatMap, count_texDispose_flatMap]
    omega

theorem claim_C2_witness :
    (cleanup nodeC2).1.layer = none
    ∧ (cleanup nodeC2).2.count (Ev.matDispose 1) = 1
    ∧ (cleanup nodeC2).2.count (Ev.matDispose 2) = 1 := by
  have h := claim_C2_cleanup_release_counts nodeC2 (Or.inr rfl)
  refine ⟨h.1, ?_, ?_⟩
  · rw [h.2.2.1 1]
    rfl
  · rw [h.2.2.1 2]
    rfl

/-- C5 as stated is false on one point: on the explicit release path the
event dispatched by `cleanup` has type `'dispose'`, not `'disposed'`.
`nodeC5` takes the explicit path (no generic dispose function) yet its trace
contains no `'disposed'` event; the one dispatched event has type
`'dispose'`. -/
def nodeC5 : Obj3D := .node 0 none (some 1) (.single ⟨2, [3]⟩) false false [] []

theorem claim_C5_counterexample :
    nodeC5.isScene = false
    ∧ nodeC5.hasDispose = false
    ∧ (cleanup nodeC5).2
        = [Ev.geomDispose 1, Ev.matDispose 2, Ev.texDispose 3,
           Ev.dispatch 0 "dispose"]
    ∧ Ev.dispatch 0 "disposed" ∉ (cleanup nodeC5).2 := by
  refine ⟨rfl, rfl, rfl, ?_⟩
  decide

/-- C5 (amended): `cleanup(N)` takes the generic-dispose path iff `N`
exposes a dispose function and is not a scene; on that path the trace is
exactly the generic dispose invocation (no geometry/material/texture release,
no dispatched event).  On the other path it releases the geometry when
present, then the material(s) and their texture-valued attributes, and
dispatches exactly one event from `N`, of type `'dispose'` (not
`'disposed'`), with no generic dispose invocation. -/
theorem claim_C5_cleanup_paths (N : Obj3D) :
    (N.isScene = false ∧ N.hasDispose = true →
      (cleanup N).2 = [Ev.genericDispose N.oid])
    ∧ (N.isScene = true ∨ N.hasDispose = false →
      (cleanup N).2 = geometryTrace N.geometry ++ materialTrace N.material
          ++ [Ev.dispatch N.oid "dispose"]
      ∧ (∀ ty, (cleanup N).2.count (Ev.dispatch N.oid ty)
          = if ty = "dispose" then 1 else 0)
      ∧ Ev.genericDispose N.oid ∉ (cleanup N).2) := by
  constructor
  · rintro ⟨hs, hd⟩
    rw [cleanup_snd, ownTrace_eq, hs, hd]
    rfl
  · intro hpath
    have hcond : (!N.isScene && N.hasDispose) = false := by
      rcases hpath with h | h <;> simp [h]
    have htrace : (cleanup N).2 = geometryTrace N.geometry ++ materialTrace N.material
        ++ [Ev.dispatch N.oid "dispose"] := by
      rw [cleanup_snd, ownTrace_eq, hcond]
      simp
    refine ⟨htrace, ?_, ?_⟩
    · intro ty
      rw [htrace, List.count_append, List.count_append]
      have h1 : (geometryTrace N.geometry).count (Ev.dispatch N.oid ty) = 0 := by
        refine List.count_eq_zero_of_not_mem ?_
        intro hmem
        rcases mem_geometryTrace hmem with ⟨x, hx⟩
        cases hx
      have h2 : (materialTrace N.material).count (Ev.dispatch N.oid ty) = 0 := by
        refine List.count_eq_zero_of_not_mem ?_
        intro hmem
        rcases mem_materialTrace hmem with ⟨x, hx⟩ | ⟨x, hx⟩ <;> cases hx
      rw [h1, h2, List.count_singleton]
      by_cases hty : ty = "dispose"
      · subst hty
        simp
      · have hb : (Ev.dispatch N.oid "dispose" == Ev.dispatch N.oid ty) = false := by
          refine beq_eq_false_iff_ne.mpr ?_
          intro h3
          cases h3
          exact hty rfl
        simp [hb, hty]
    · rw [htrace]
      intro hmem
      rcases List.mem_append.mp hmem with h1 | h2
      · rcases List.mem_append.mp h1 with hg | hm
        · rcases mem_geometryTrace hg with ⟨x, hx⟩
          cases hx
        · rcases mem_materialTrace hm with ⟨x, hx⟩ | ⟨x, hx⟩ <;> cases hx
      · have h3 := List.mem_singleton.mp h2
        cases h3

def nodeC5g : Obj3D := .node 4 none (some 6) (.single ⟨7, [8]⟩) false true [] []

theorem claim_C5_witness :
    (cleanup nodeC5g).2 = [Ev.genericDispose 4]
    ∧ (cleanup nodeC5).2.count (Ev.dispatch nodeC5.oid "dispose") = 1 := by
  constructor
  · exact (claim_C5_cleanup_paths nodeC5g).1 ⟨rfl, rfl⟩
  · have h := ((claim_C5_cleanup_paths nodeC5).2 (Or.inr rfl)).2.1 "dispose"
    rw [h]
    rfl

/-- C4: `removeChildrenAndCleanup(L, N)` selects and detaches exactly as
`removeChildren(L, N)`; it then cleans up `N` itself iff `N.layer` is the
target layer by identity (its trace is the single-node cleanup trace exactly
when `N.layer` is `L` itself, empty otherwise, even when `N.layer` is a
distinct layer object with the same id); children of `N`, detached or
retained, are never cleaned up (no dispatch or generic-dispose event for any
child identity other than the node's own appears in the trace). -/
theorem claim_C4_removeChildrenAndCleanup (L : Layer) (N : Obj3D) :
    ((removeChildrenAndCleanup L N).removed = (removeChildren L N).removed)
    ∧ ((removeChildrenAndCleanup L N).obj.children = (removeChildren L N).obj.children)
    ∧ ((removeChildrenAndCleanup L N).trace ≠ [] ↔ N.layer = some L)
    ∧ (N.layer = some L →
        (removeChildrenAndCleanup L N).trace = ownTrace N
        ∧ (removeChildrenAndCleanup L N).obj.layer = none)
    ∧ (∀ M, N.layer = some M → M.id = L.id → M ≠ L →
        (removeChildrenAndCleanup L N).trace = [])
    ∧ (∀ x, x ≠ N.oid →
        (∀ ty, Ev.dispatch x ty ∉ (removeChildrenAndCleanup L N).trace)
        ∧ Ev.genericDispose x ∉ (removeChildrenAndCleanup L N).trace) := by
  cases N with
  | node i lay g m s d lk ch =>
    rw [removeChildrenAndCleanup_node, removeChildren_node]
    simp only [Obj3D.layer_node, Obj3D.oid_node]
    by_cases hc : lay = some L
    · rw [if_pos hc]
      refine ⟨rfl, rfl, ?_, ?_, ?_, ?_⟩
      · exact ⟨fun _ => hc, fun _ => ownTrace_ne_nil _⟩
      · intro _
        exact ⟨rfl, rfl⟩
      · intro M hM hid hne
        rw [hc] at hM
        exact absurd (Option.some.injEq _ _ ▸ hM).symm hne
      · intro x hx
        constructor
        · intro ty hmem
          exact hx ((ownTrace_oid hmem).1 x ty rfl)
        · intro hmem
          exact hx ((ownTrace_oid hmem).2 x rfl)
    · rw [if_neg hc]
      refine ⟨rfl, rfl, ?_, ?_, ?_, ?_⟩
      · simp [hc]
      · intro h
        exact absurd h hc
      · intro M _ _ _
        rfl
      · intro x _
        exact ⟨fun ty h => (List.not_mem_nil _ h), fun h => (List.not_mem_nil _ h)⟩

def layerC4 : Layer := ⟨0, 10⟩
def nodeC4 : Obj3D := .node 1 (some layerC4) (some 2) .absent false false [] []
def nodeC4b : Obj3D := .node 1 (some ⟨1, 10⟩) (some 2) .absent false false [] []

theorem claim_C4_witness :
    (removeChildrenAndCleanup layerC4 nodeC4).trace = ownTrace nodeC4
    ∧ (removeChildrenAndCleanup layerC4 nodeC4b).trace = []
    ∧ Ev.dispatch 7 "dispose" ∉ (removeChildrenAndCleanup layerC4 nodeC4).trace := by
  refine ⟨((claim_C4_removeChildrenAndCleanup layerC4 nodeC4).2.2.2.1 rfl).1, ?_, ?_⟩
  · exact (claim_C4_removeChildrenAndCleanup layerC4 nodeC4b).2.2.2.2.1
      ⟨1, 10⟩ rfl rfl (by decide)
  · exact ((claim_C4_removeChildrenAndCleanup layerC4 nodeC4).2.2.2.2.2
      7 (by decide)).1 "dispose"

/-- C9: when `N`'s layer reference is not the identical target layer object,
`removeChildrenAndCleanup(L, N)` is observably the same operation as
`removeChildren(L, N)`: the full results (node, returned list, trace)
coincide and no resource release or cleanup happens at all. -/
theorem claim_C9_removeChildrenAndCleanup_refines (L : Layer) (N : Obj3D)
    (h : N.layer ≠ some L) :
    removeChildrenAndCleanup L N = removeChildren L N
    ∧ (removeChildrenAndCleanup L N).trace = [] := by
  cases N with
  | node i lay g m s d lk ch =>
    have hlay : lay ≠ some L := by simpa using h
    rw [removeChildrenAndCleanup_node, removeChildren_node, if_neg hlay]
    exact ⟨rfl, rfl⟩

def layerC9 : Layer := ⟨0, 10⟩
def nodeC9 : Obj3D := .node 1 (some ⟨1, 10⟩) (some 2) (.single ⟨3, [4]⟩) false false [] []

theorem claim_C9_witness :
    removeChildrenAndCleanup layerC9 nodeC9 = removeChildren layerC9 nodeC9
    ∧ (removeChildrenAndCleanup layerC9 nodeC9).trace = [] :=
  claim_C9_removeChildrenAndCleanup_refines layerC9 nodeC9 (by decide)

/-- Characterisation of the children left on a node by the recursive
removal: a child stays iff it does not belong to the target layer and its
identity is not among the node's link entries (link entries are detached by
`obj.remove(...toRemove)` regardless of their own layer). -/
lemma mem_rccr_children_iff (L : Layer) (N : Obj3D) (c : Obj3D) :
    c ∈ (removeChildrenAndCleanupRecursively L N).obj.children
      ↔ (c ∈ N.children ∧ belongs L c = false ∧ c.oid ∉ N.link.map Obj3D.oid) := by
  rw [rccr_obj_children, List.mem_filter]
  constructor
  · rintro ⟨h1, h2⟩
    rcases Bool.and_eq_true_iff.mp h2 with ⟨hb, hall⟩
    refine ⟨h1, by simpa using hb, ?_⟩
    intro hmem
    rcases List.mem_map.mp hmem with ⟨e, he, hoid⟩
    have hne := List.all_eq_true.mp hall e he
    rw [bne_iff_ne] at hne
    exact hne hoid
  · rintro ⟨h1, hb, hnm⟩
    refine ⟨h1, ?_⟩
    rw [Bool.and_eq_true]
    refine ⟨by simp [hb], ?_⟩
    rw [List.all_eq_true]
    intro e he
    rw [bne_iff_ne]
    intro heq
    exact hnm (List.mem_map.mpr ⟨e, he, heq⟩)

/-- C1: `removeChildrenAndCleanupRecursively(L, N)` selects as candidates
the children belonging to `L` by id (in order) followed by every link entry
regardless of its layer, and returns exactly that top-level list (nested
removals excluded); its whole side-effect trace is the concatenation of the
recursive traces of the candidates, in order, followed by the cleanup of `N`
itself exactly when `N.layer` exists and has `L`'s id (id equality, not
identity); the candidate set is detached from the child collection in one
step, the retained children keeping their order. -/
theorem claim_C1_removeChildrenAndCleanupRecursively (L : Layer) (N : Obj3D) :
    ((removeChildrenAndCleanupRecursively L N).removed.map Obj3D.oid
        = (N.children.filter (belongs L)).map Obj3D.oid ++ N.link.map Obj3D.oid)
    ∧ ((removeChildrenAndCleanupRecursively L N).trace
        = (N.children.filter (belongs L) ++ N.link).flatMap
            (fun c => (removeChildrenAndCleanupRecursively L c).trace)
          ++ (if layerIdMatch L N.layer then ownTrace N else []))
    ∧ (∀ c, c ∈ (removeChildrenAndCleanupRecursively L N).obj.children
        ↔ (c ∈ N.children ∧ belongs L c = false ∧ c.oid ∉ N.link.map Obj3D.oid))
    ∧ ((removeChildrenAndCleanupRecursively L N).obj.children.Sublist N.children)
    ∧ (layerIdMatch L N.layer = true ↔ ∃ l, N.layer = some l ∧ l.id = L.id) := by
  refine ⟨rccr_removed_map_oid L N, ?_, fun c => mem_rccr_children_iff L N c, ?_, ?_⟩
  · rw [rccr_trace, List.flatMap_append]
  · rw [rccr_obj_children]
    exact List.filter_sublist _
  · cases hL : N.layer with
    | none => simp [layerIdMatch]
    | some l => simp [layerIdMatch]

/-- C3 as stated is false on one point: a node whose layer does not belong
to the target layer IS detached from its parent's child collection when it
is an entry of the parent's link list.  Here `childC3` has a foreign layer,
sits in `nodeC3`'s children and link, and is gone from the children after
the recursive removal. -/
def layerC3 : Layer := ⟨0, 10⟩
def childC3 : Obj3D := .node 2 (some ⟨1, 20⟩) none .absent false false [] []
def nodeC3 : Obj3D := .node 1 none none .absent false false [childC3] [childC3]

theorem claim_C3_counterexample :
    belongs layerC3 childC3 = false
    ∧ childC3 ∈ nodeC3.children
    ∧ (removeChildrenAndCleanupRecursively layerC3 nodeC3).obj.children = [] := by
  refine ⟨rfl, List.mem_cons_self _ _, ?_⟩
  rw [rccr_obj_children]
  rfl

/-- C3 (amended): during any of the three removal operations a node whose
own layer does not belong to `L` never has its own resources released, and
is never detached from its parent's child collection unless it is an entry
of the parent's link list (link entries are detached regardless of their own
layer); traversal still continues into every visited node's link list and
children regardless of that node's own layer: every link entry is selected
as a candidate, and every event of the recursive trace is the single-node
cleanup of some reachable node that belongs to `L` by id. -/
theorem claim_C3_nonbelonging_preserved (L : Layer) (N : Obj3D) :
    (∀ c ∈ N.children, belongs L c = false → c ∈ (removeChildren L N).obj.children)
    ∧ (∀ c ∈ N.children, belongs L c = false →
        c ∈ (removeChildrenAndCleanup L N).obj.children)
    ∧ (∀ c ∈ N.children, belongs L c = false → c.oid ∉ N.link.map Obj3D.oid →
        c ∈ (removeChildrenAndCleanupRecursively L N).obj.children)
    ∧ (∀ e ∈ (removeChildrenAndCleanup L N).trace, belongs L N = true ∧ e ∈ ownTrace N)
    ∧ (∀ e ∈ (removeChildrenAndCleanupRecursively L N).trace,
        ∃ n, n ∈ allNodes N ∧ belongs L n = true ∧ e ∈ ownTrace n)
    ∧ ((removeChildrenAndCleanupRecursively L N).removed.map Obj3D.oid
        = (N.children.filter (belongs L)).map Obj3D.oid ++ N.link.map Obj3D.oid) := by
  refine ⟨?_, ?_, ?_, ?_, rccr_trace_from_belonging L N, rccr_removed_map_oid L N⟩
  · intro c hc hb
    cases N with
    | node i lay g m s d lk ch =>
      rw [removeChildren_node]
      refine List.mem_filter.mpr ⟨hc, ?_⟩
      simp [hb]
  · intro c hc hb
    cases N with
    | node i lay g m s d lk ch =>
      rw [removeChildrenAndCleanup_node]
      by_cases hl : lay = some L
      · rw [if_pos hl]
        refine List.mem_filter.mpr ⟨hc, ?_⟩
        simp [hb]
      · rw [if_neg hl]
        refine List.mem_filter.mpr ⟨hc, ?_⟩
        simp [hb]
  · intro c hc hb hnm
    exact (mem_rccr_children_iff L N c).mpr ⟨hc, hb, hnm⟩
  · intro e he
    cases N with
    | node i lay g m s d lk ch =>
      rw [removeChildrenAndCleanup_node] at he
      by_cases hl : lay = some L
      · rw [if_pos hl] at he
        subst hl
        refine ⟨?_, he⟩
        simp [belongs, layerIdMatch]
      · rw [if_neg hl] at he
        exact absurd he (List.not_mem_nil e)

def nodeC3w : Obj3D := .node 1 none none .absent false false [] [childC3]

theorem claim_C3_witness :
    childC3 ∈ (removeChildren layerC3 nodeC3w).obj.children
    ∧ childC3 ∈ (removeChildrenAndCleanupRecursively layerC3 nodeC3w).obj.children := by
  have h := claim_C3_nonbelonging_preserved layerC3 nodeC3w
  refine ⟨h.1 childC3 (List.mem_cons_self _ _) rfl, ?_⟩
  refine h.2.2.1 childC3 (List.mem_cons_self _ _) rfl ?_
  intro hmem
  simp [nodeC3w] at hmem

/-- C10: the recursive removal leaves the node's link list in place: the
link entries (as identities, in order and number) are unchanged, so a second
call on the node selects exactly the same linked nodes again among its
candidates. -/
theorem claim_C10_link_list_unchanged (L : Layer) (N : Obj3D) :
    ((removeChildrenAndCleanupRecursively L N).obj.link.map Obj3D.oid
      = N.link.map Obj3D.oid)
    ∧ ((removeChildrenAndCleanupRecursively L N).obj.link.length = N.link.length)
    ∧ (∀ e ∈ N.link, e.oid ∈
        (removeChildrenAndCleanupRecursively L
          (removeChildrenAndCleanupRecursively L N).obj).removed.map Obj3D.oid) := by
  refine ⟨rccr_obj_link_map_oid L N, ?_, ?_⟩
  · rw [rccr_obj_link, List.length_map]
  · intro e he
    rw [rccr_removed_map_oid]
    refine List.mem_append_right _ ?_
    rw [rccr_obj_link_map_oid]
    exact List.mem_map.mpr ⟨e, he, rfl⟩

def layerC10 : Layer := ⟨0, 10⟩
def linkC10 : Obj3D := .node 2 (some ⟨1, 20⟩) none .absent false false [] []
def nodeC10 : Obj3D := .node 1 (some layerC10) none .absent false false [linkC10] []

theorem claim_C10_witness :
    (removeChildrenAndCleanupRecursively layerC10 nodeC10).obj.link.map Obj3D.oid
      = [2]
    ∧ (2 : Nat) ∈ (removeChildrenAndCleanupRecursively layerC10
        (removeChildrenAndCleanupRecursively layerC10 nodeC10).obj).removed.map
          Obj3D.oid := by
  have h := claim_C10_link_list_unchanged layerC10 nodeC10
  refine ⟨by rw [h.1]; rfl, ?_⟩
  have h2 := h.2.2 linkC10 (List.mem_cons_self _ _)
  simpa [linkC10] using h2
